import Mathlib

/-!
Verification development for the HalaOS `futures` DNS toolkit.

The development shallowly embeds the three core components:

* `FuturesUnorderedMap` — the keyed future multiplexer of
  `crates/map/src/unorderd.rs` (state `RawFutureWaitMap`, operations
  `insert` and `poll_next`);
* the unicast resolver session of `crates/dns/src/nslookup.rs`
  (state `RawDnsLookup`, operations `send`, `recv`, `close`, and the
  two halves of `call_with`);
* the mDNS discovery session of `crates/dns/src/mdns.rs`
  (state `RawMdnsDiscover`, operations `close`, `on_timeout`,
  `timeout_instant`, `multicast`, `send`, `recv`, `accept`).

Machine integers are embedded as `Nat` (with `% 2 ^ 16` where the code
wraps), byte buffers as `List Nat`, and the black-box wire codec
(hickory-proto) is abstracted: parsing and serialization outcomes are
passed in explicitly as `Except` values, exactly at the points where the
Rust code invokes `Message::from_vec` / `Message::to_vec`.

Asynchronous operations that loop `{ check state; otherwise wait }` are
embedded as one-shot outcome functions (`OpOutcome`): the result of
running the loop body up to its first suspension point; `blocked` means
the call parks on the wait map until a matching event is inserted.
-/

/-! ## Association-list helpers

`RawFutureWaitMap.futs` is a Rust `HashMap`; we embed it as an
association list with unique keys.  `kfind`/`kerase`/`kinsert` embed
`HashMap::get` / `HashMap::remove` / `HashMap::insert` (insert
overwrites any previous binding for the key). -/

def kfind {K V : Type} [DecidableEq K] (k : K) : List (K × V) → Option V
  | [] => none
  | (k', v) :: rest => if k' = k then some v else kfind k rest

def kerase {K V : Type} [DecidableEq K] (k : K) (l : List (K × V)) : List (K × V) :=
  l.filter (fun p => decide (p.1 ≠ k))

def kinsert {K V : Type} [DecidableEq K] (k : K) (v : V) (l : List (K × V)) : List (K × V) :=
  (k, v) :: kerase k l

/-- Keys of an association list are pairwise distinct (the `HashMap`
representation invariant: "a key maps to at most one live future"). -/
def keysNodup {K V : Type} (l : List (K × V)) : Prop :=
  (l.map Prod.fst).Nodup

/-! ## The keyed future multiplexer (`crates/map/src/unorderd.rs`) -/

/-- Shallow embedding of a `BoxFuture<'static, R>` stored in the map: a
deterministic future that reports `Pending` for `pending` more polls and
then completes with `val`.  (The claims settled below depend only on
which stored future an observed completion value comes from, not on the
wake-up timing of the future itself.) -/
structure Fut (R : Type) where
  pending : Nat
  val : R
  deriving DecidableEq

/-- One poll of a stored future: `Sum.inl r` is `Poll::Ready(r)`,
`Sum.inr f` is `Poll::Pending` with the future `f` to be stored back. -/
def pollFut {R : Type} (f : Fut R) : R ⊕ Fut R :=
  if f.pending = 0 then Sum.inl f.val else Sum.inr ⟨f.pending - 1, f.val⟩

/-- State of `FuturesUnorderedMap` (struct `RawFutureWaitMap`): the
key-to-future map `futs`, the FIFO `ready_queue`, and whether an outer
waker is currently stored (`waker: Option<Waker>` embedded as the flag
that a waker is present; waking is a no-op for the properties below). -/
structure RawFutureWaitMap (K R : Type) where
  futs : List (K × Fut R)
  ready_queue : List K
  waker : Bool
  deriving DecidableEq

namespace FuturesUnorderedMap

/-- Embedding of `FuturesUnorderedMap::insert`: push the key onto the
ready queue, store the future under the key (overwriting any previous
future stored there), and take-and-wake the stored outer waker. -/
def insert {K R : Type} [DecidableEq K] (s : RawFutureWaitMap K R) (k : K) (fut : Fut R) :
    RawFutureWaitMap K R :=
  { futs := kinsert k fut s.futs
    ready_queue := s.ready_queue ++ [k]
    waker := false }

/-- The `while let Some(key) = inner.ready_queue.pop_front()` loop of
`FuturesUnorderedMap::poll_next`, made explicit over the map and the
queue.  Returns the yielded completion (if any), the final map, and the
remaining ready queue. -/
def pollLoop {K R : Type} [DecidableEq K] :
    List (K × Fut R) → List K → Option (K × R) × List (K × Fut R) × List K
  | futs, [] => (none, futs, [])
  | futs, k :: rest =>
    match kfind k futs with
    | none => pollLoop futs rest
    | some fut =>
      let futs' := kerase k futs
      match pollFut fut with
      | Sum.inl r => (some (k, r), futs', rest)
      | Sum.inr fut' => pollLoop (kinsert k fut' futs') rest

/-- Embedding of `FuturesUnorderedMap::poll_next`: store the caller's
waker, then run the ready-queue loop; `none` as first component is
`Poll::Pending`. -/
def poll_next {K R : Type} [DecidableEq K] (s : RawFutureWaitMap K R) :
    Option (K × R) × RawFutureWaitMap K R :=
  match pollLoop s.futs s.ready_queue with
  | (out, futs', queue') => (out, ⟨futs', queue', true⟩)

/-- The completions observed over `n` consecutive `poll_next` calls
(no interleaved `insert`s or proxy wake-ups). -/
def yieldsOf {K R : Type} [DecidableEq K] : Nat → RawFutureWaitMap K R → List (K × R)
  | 0, _ => []
  | n + 1, s =>
    match poll_next s with
    | (some kr, s') => kr :: yieldsOf n s'
    | (none, s') => yieldsOf n s'

end FuturesUnorderedMap

/-- All futures stored under key `k` have completion value `v`. -/
def allValAt {K R : Type} (k : K) (v : R) (l : List (K × Fut R)) : Prop :=
  ∀ f : Fut R, (k, f) ∈ l → f.val = v

/-! ## Shared DNS model types (`crates/dns/src`) -/

/-- `hickory_proto::op::MessageType`. -/
inductive MessageType where
  | Query
  | Response
  deriving DecidableEq

/-- The `hickory_proto::rr::RecordType` values used by this crate. -/
inductive RecordType where
  | A
  | AAAA
  | TXT
  | PTR
  deriving DecidableEq

/-- The wire codec (hickory-proto) is a specified black box (§6 of the
design): a `Message` exposes its 16-bit id, message type, response code,
and the owner names of its query/answer/additional records — the only
parts of a record this crate inspects are the owner names, so records
are embedded by their names. -/
structure Message where
  id : Nat
  message_type : MessageType
  response_code : Nat
  queries : List (String × RecordType)
  answers : List String
  additionals : List String
  deriving DecidableEq

/-- The variants of `crate::errors::Error` reachable in the embedded
code.  `ProtoError` stands for any error produced by the black-box
codec (`hickory_proto::error::ProtoError`). -/
inductive Error where
  | LookupCanceled (id : Nat)
  | TooShort
  | Truncated
  | InvalidState
  | ProtoError
  | ServerError (code : Nat)
  | InvalidType (mt : MessageType)
  deriving DecidableEq

/-- Outcome of one-shot running a `loop { check; …; wait }` async
operation up to its first suspension point: `ret r s` means the call
returns `r` leaving the session state `s`; `blocked` means the call
parks on the session's wait map. -/
inductive OpOutcome (α σ : Type) where
  | ret (r : Except Error α) (s : σ)
  | blocked

/-! ## The resolver session (`crates/dns/src/nslookup.rs`) -/

/-- `nslookup::LookupEvent`: the keys of the resolver's wait map. -/
inductive LookupEvent where
  | Send
  | Response (id : Nat)
  deriving DecidableEq

/-- `nslookup::LookupEventArg`: the values carried by resolver events. -/
inductive LookupEventArg where
  | Send
  | Response (buf : List Nat)
  deriving DecidableEq

/-- Modelled from the spec: `KeyWaitMap` (crate `futures_map`, whose
source is not part of this tree) is an async-aware keyed rendezvous map:
`insert(key, value)` stores the value and wakes exactly one waiter on
that key, or buffers the value if none is waiting; `wait(key, guard)`
atomically releases the guard and suspends until a matching insert,
yielding the inserted value.  It is embedded as the FIFO buffer of
inserted `(key, value)` pairs: `kwInsert` appends, and a waiter on key
`k` resumes exactly when `kfind k` of the buffer is `some v` (consuming
that entry); `kfind k = none` means such a waiter stays suspended. -/
def kwInsert {K V : Type} (m : List (K × V)) (k : K) (v : V) : List (K × V) :=
  m ++ [(k, v)]

/-- State of the resolver session (struct `RawDnsLookup`): the closed
flag, the wrapping `u16` id generator, the outbound FIFO `sending`
queue, and the `KeyWaitMap` buffer `waiters`. -/
structure RawDnsLookup where
  is_closed : Bool
  idgen : Nat
  sending : List (List Nat)
  waiters : List (LookupEvent × LookupEventArg)
  deriving DecidableEq

namespace DnsLookupNetwork

/-- Embedding of `DnsLookupNetwork::send`: pop the front of the
outbound queue if non-empty; otherwise fail with `InvalidState` if the
client is closed; otherwise wait on the `Send` event. -/
def send (s : RawDnsLookup) : OpOutcome (List Nat) RawDnsLookup :=
  match s.sending with
  | buf :: rest => .ret (.ok buf) { s with sending := rest }
  | [] =>
    if s.is_closed then .ret (.error .InvalidState) s else .blocked

/-- Embedding of `DnsLookupNetwork::recv`: fail with `InvalidState` if
closed; fail with `TooShort` if the buffer has fewer than 12 bytes;
otherwise read the big-endian 16-bit id from the first two bytes and
insert a `Response id` event carrying the raw bytes into the wait
map. -/
def recv (s : RawDnsLookup) (buf : List Nat) : Except Error Unit × RawDnsLookup :=
  if s.is_closed then (.error .InvalidState, s)
  else if buf.length < 12 then (.error .TooShort, s)
  else
    let id := buf.getD 0 0 * 256 + buf.getD 1 0
    (.ok (), { s with waiters := kwInsert s.waiters (.Response id) (.Response buf) })

/-- Embedding of `DnsLookupNetwork::close`: set the closed flag and
insert a `Send` event (waking send waiters). -/
def close (s : RawDnsLookup) : RawDnsLookup :=
  { s with is_closed := true, waiters := kwInsert s.waiters .Send .Send }

end DnsLookupNetwork

namespace DnsLookup

/-- First half of `DnsLookup::call_with`, up to the suspension on the
`Response id` event: allocate the next transaction id from the wrapping
counter, push the serialized query (`serialized`, the output of the
black-box `message.to_vec()`) onto the outbound queue, and insert a
`Send` event.  Returns the allocated id and the updated session. -/
def call_with_start (s : RawDnsLookup) (serialized : List Nat) : Nat × RawDnsLookup :=
  let id := s.idgen
  (id,
    { s with
      idgen := (s.idgen + 1) % 2 ^ 16
      sending := s.sending ++ [serialized]
      waiters := kwInsert s.waiters .Send .Send })

/-- Second half of `DnsLookup::call_with`, resumed with the outcome of
`waiters.wait(&LookupEvent::Response(id))`: on a delivered
`Response buf` the continuation `k` (the parse / message-type check /
response-code check / caller parser section) runs on the raw bytes; any
other outcome fails with `LookupCanceled id`. -/
def call_with_resume {R : Type} (id : Nat) (outcome : Option LookupEventArg)
    (k : List Nat → Except Error R) : Except Error R :=
  match outcome with
  | some (.Response buf) => k buf
  | _ => .error (.LookupCanceled id)

end DnsLookup

/-! ## The mDNS discovery session (`crates/dns/src/mdns.rs`) -/

/-- `mdns::MdnsDiscoverEvent`: the keys of the discovery wait map.  The
discovery wait map carries no values (`KeyWaitMap<MdnsDiscoverEvent, ()>`
is pure wake-up signaling), so the session records the append-only log
of inserted events. -/
inductive MdnsDiscoverEvent where
  | Send
  | Receive
  deriving DecidableEq

/-- State of the discovery session (struct `RawMdnsDiscover` plus its
`RawMdnsDiscoverMutable` part): closed flag, generated identity name
`id`, configured `service_name`, re-ask interval, the two FIFO queues,
the last-query instant, and the log of events inserted into the wait
map.  Instants and durations are embedded as `Nat`. -/
structure RawMdnsDiscover where
  is_closed : Bool
  id : String
  service_name : String
  intervals : Nat
  incoming : List (Message × Nat)
  outgoing : List (List Nat)
  last_asking : Option Nat
  events : List MdnsDiscoverEvent
  deriving DecidableEq

namespace MdnsDiscoverNetwork

/-- Embedding of `MdnsDiscoverNetwork::close`: set the closed flag and
batch-insert the `Send` and `Receive` events. -/
def close (s : RawMdnsDiscover) : RawMdnsDiscover :=
  { s with is_closed := true, events := s.events ++ [.Send, .Receive] }

/-- Embedding of `MdnsDiscoverNetwork::multicast`: fail with
`InvalidState` if closed; append the session identity as an additional
record to the message; serialize it with the black-box codec (`to_vec`,
passed explicitly); on serialization failure propagate the error;
otherwise push the bytes onto the outgoing queue and insert a `Send`
event. -/
def multicast (s : RawMdnsDiscover) (message : Message)
    (to_vec : Message → Except Error (List Nat)) :
    Except Error Unit × RawMdnsDiscover :=
  if s.is_closed then (.error .InvalidState, s)
  else
    let message := { message with additionals := message.additionals ++ [s.id] }
    match to_vec message with
    | .error e => (.error e, s)
    | .ok buf =>
      (.ok (),
        { s with outgoing := s.outgoing ++ [buf], events := s.events ++ [.Send] })

/-- The query message built by `MdnsDiscoverNetwork::on_timeout`: a
fresh `Message` with a random id `rid`, message type `Query`, and one
PTR question for the configured service name. -/
def queryMessage (service_name : String) (rid : Nat) : Message :=
  { id := rid
    message_type := .Query
    response_code := 0
    queries := [(service_name, .PTR)]
    answers := []
    additionals := [] }

/-- Embedding of `MdnsDiscoverNetwork::on_timeout`: fail with
`InvalidState` if closed; build a PTR query for the service name (with
the random id `rid`), multicast it, and on success record `now` as
`last_asking`. -/
def on_timeout (s : RawMdnsDiscover) (rid now : Nat)
    (to_vec : Message → Except Error (List Nat)) :
    Except Error Unit × RawMdnsDiscover :=
  if s.is_closed then (.error .InvalidState, s)
  else
    match multicast s (queryMessage s.service_name rid) to_vec with
    | (.error e, s') => (.error e, s')
    | (.ok _, s') => (.ok (), { s' with last_asking := some now })

/-- Embedding of `MdnsDiscoverNetwork::timeout_instant`: `none` if
closed; `last_asking + intervals` if a query has been sent before;
otherwise `Instant::now()` (passed explicitly as `now`). -/
def timeout_instant (s : RawMdnsDiscover) (now : Nat) : Option Nat :=
  if s.is_closed then none
  else
    match s.last_asking with
    | some last_asking => some (last_asking + s.intervals)
    | none => some now

/-- Embedding of `MdnsDiscoverNetwork::send`: fail with `InvalidState`
if closed; otherwise pop the front of the outgoing queue if non-empty;
otherwise wait on the `Send` event. -/
def send (s : RawMdnsDiscover) : OpOutcome (List Nat) RawMdnsDiscover :=
  if s.is_closed then .ret (.error .InvalidState) s
  else
    match s.outgoing with
    | buf :: rest => .ret (.ok buf) { s with outgoing := rest }
    | [] => .blocked

/-- Embedding of `MdnsDiscoverNetwork::recv`.  `parsed` is the outcome
of the black-box `Message::from_vec(buf)`; the `?` operator propagates
a parse failure to the caller.  A parsed message is silently skipped
(success, no state change) if any additional record's name equals the
session identity, or if no answer record's name equals the configured
service name; otherwise it is enqueued with the sender address and a
`Receive` event is inserted. -/
def recv (s : RawMdnsDiscover) (parsed : Except Error Message) (from_addr : Nat) :
    Except Error Unit × RawMdnsDiscover :=
  match parsed with
  | .error e => (.error e, s)
  | .ok message =>
    if message.additionals.any (fun name => name = s.id) then (.ok (), s)
    else if !(message.answers.any (fun name => name = s.service_name)) then (.ok (), s)
    else
      (.ok (),
        { s with
          incoming := s.incoming ++ [(message, from_addr)]
          events := s.events ++ [.Receive] })

end MdnsDiscoverNetwork

namespace MdnsDiscover

/-- Embedding of `MdnsDiscover::accept`: fail with `InvalidState` if
closed; otherwise pop the oldest buffered `(message, address)` pair if
any; otherwise wait on the `Receive` event. -/
def accept (s : RawMdnsDiscover) : OpOutcome (Message × Nat) RawMdnsDiscover :=
  if s.is_closed then .ret (.error .InvalidState) s
  else
    match s.incoming with
    | m :: rest => .ret (.ok m) { s with incoming := rest }
    | [] => .blocked

end MdnsDiscover

/-! ## Concrete example states used by witnesses and counterexamples -/

/-- A discovery session state builder for concrete instances. -/
def mkMdns (closed : Bool) (inq : List (Message × Nat)) (outq : List (List Nat))
    (la : Option Nat) : RawMdnsDiscover :=
  { is_closed := closed
    id := "b6e1.futures-dns.mdns"
    service_name := "_svc._udp.local"
    intervals := 4
    incoming := inq
    outgoing := outq
    last_asking := la
    events := [] }

/-- A parsed mDNS message builder for concrete instances. -/
def mkMsg (answers additionals : List String) : Message :=
  { id := 1
    message_type := .Response
    response_code := 0
    queries := []
    answers := answers
    additionals := additionals }

/-- A resolver session state builder for concrete instances. -/
def mkDns (closed : Bool) (sending : List (List Nat))
    (waiters : List (LookupEvent × LookupEventArg)) : RawDnsLookup :=
  { is_closed := closed, idgen := 0, sending := sending, waiters := waiters }

/-! ## Association-list and poll-loop lemmas -/

theorem kfind_mem {K V : Type} [DecidableEq K] {k : K} {v : V} :
    ∀ {l : List (K × V)}, kfind k l = some v → (k, v) ∈ l := by
  intro l
  induction l with
  | nil => intro h; simp [kfind] at h
  | cons p rest ih =>
    intro h
    rcases p with ⟨k', v'⟩
    by_cases hk : k' = k
    · subst hk
      simp [kfind] at h
      subst h
      exact List.mem_cons_self _ _
    · simp [kfind, hk] at h
      exact List.mem_cons_of_mem _ (ih h)

theorem mem_kerase {K V : Type} [DecidableEq K] {k : K} {p : K × V} {l : List (K × V)}
    (h : p ∈ kerase k l) : p ∈ l ∧ p.1 ≠ k := by
  have h' := List.mem_filter.mp h
  exact ⟨h'.1, by simpa using h'.2⟩

theorem kerase_kerase {K V : Type} [DecidableEq K] (k : K) (l : List (K × V)) :
    kerase k (kerase k l) = kerase k l := by
  simp [kerase, List.filter_filter]

theorem keysNodup_kinsert {K V : Type} [DecidableEq K] (k : K) (v : V) {l : List (K × V)}
    (h : keysNodup l) : keysNodup (kinsert k v l) := by
  unfold keysNodup kinsert at *
  simp only [List.map_cons]
  refine List.nodup_cons.mpr ⟨?_, ?_⟩
  · intro hmem
    rcases List.mem_map.mp hmem with ⟨p, hp, hpk⟩
    exact (mem_kerase hp).2 hpk
  · exact h.sublist ((List.filter_sublist _).map Prod.fst)

theorem pollFut_inl {R : Type} {f : Fut R} {r : R} (h : pollFut f = Sum.inl r) :
    r = f.val := by
  by_cases hp : f.pending = 0
  · simp [pollFut, hp] at h
    exact h.symm
  · simp [pollFut, hp] at h

theorem pollFut_inr {R : Type} {f f' : Fut R} (h : pollFut f = Sum.inr f') :
    f'.val = f.val := by
  by_cases hp : f.pending = 0
  · simp [pollFut, hp] at h
  · simp [pollFut, hp] at h
    rw [← h]

theorem allValAt_kerase {K R : Type} [DecidableEq K] {k k' : K} {v : R}
    {l : List (K × Fut R)} (h : allValAt k v l) : allValAt k v (kerase k' l) :=
  fun f hf => h f (mem_kerase hf).1

theorem allValAt_kinsert {K R : Type} [DecidableEq K] {k k' : K} {v : R} {f : Fut R}
    {l : List (K × Fut R)} (h : allValAt k v l) (hf : k' = k → f.val = v) :
    allValAt k v (kinsert k' f l) := by
  intro g hg
  rcases List.mem_cons.mp hg with heq | hmem
  · have hk : k = k' := congrArg Prod.fst heq
    have hgf : g = f := congrArg Prod.snd heq
    rw [hgf]
    exact hf hk.symm
  · exact h g (mem_kerase hmem).1

theorem pollLoop_allValAt {K R : Type} [DecidableEq K] (k : K) (v : R) (q : List K) :
    ∀ futs : List (K × Fut R), allValAt k v futs →
      (∀ r : R, (FuturesUnorderedMap.pollLoop futs q).1 = some (k, r) → r = v) ∧
      allValAt k v (FuturesUnorderedMap.pollLoop futs q).2.1 := by
  induction q with
  | nil =>
    intro futs h
    refine ⟨fun r hr => by simp [FuturesUnorderedMap.pollLoop] at hr, ?_⟩
    simpa [FuturesUnorderedMap.pollLoop] using h
  | cons k' rest ih =>
    intro futs h
    cases hfind : kfind k' futs with
    | none =>
      have hrec := ih futs h
      simpa [FuturesUnorderedMap.pollLoop, hfind] using hrec
    | some fut =>
      cases hpoll : pollFut fut with
      | inl r =>
        constructor
        · intro r₀ hr
          simp [FuturesUnorderedMap.pollLoop, hfind, hpoll] at hr
          rcases hr with ⟨hk, hrr⟩
          subst hk
          have hval := h fut (kfind_mem hfind)
          rw [← hrr, pollFut_inl hpoll, hval]
        · intro g hg
          simp [FuturesUnorderedMap.pollLoop, hfind, hpoll] at hg
          exact h g (mem_kerase hg).1
      | inr fut' =>
        have hvals : allValAt k v (kinsert k' fut' (kerase k' futs)) := by
          apply allValAt_kinsert (allValAt_kerase h)
          intro hk
          subst hk
          rw [pollFut_inr hpoll]
          exact h fut (kfind_mem hfind)
        have hrec := ih _ hvals
        simpa [FuturesUnorderedMap.pollLoop, hfind, hpoll] using hrec

theorem yieldsOf_allValAt {K R : Type} [DecidableEq K] (k : K) (v : R) (n : Nat) :
    ∀ s : RawFutureWaitMap K R, allValAt k v s.futs →
      ∀ r : R, (k, r) ∈ FuturesUnorderedMap.yieldsOf n s → r = v := by
  induction n with
  | zero => intro s h r hr; simp [FuturesUnorderedMap.yieldsOf] at hr
  | succ n ih =>
    intro s h r hr
    have hmain := pollLoop_allValAt k v s.ready_queue s.futs h
    rcases hpl : FuturesUnorderedMap.pollLoop s.futs s.ready_queue with ⟨out, futs', queue'⟩
    rw [hpl] at hmain
    have hpn : FuturesUnorderedMap.poll_next s = (out, ⟨futs', queue', true⟩) := by
      simp [FuturesUnorderedMap.poll_next, hpl]
    rw [FuturesUnorderedMap.yieldsOf, hpn] at hr
    cases out with
    | none => exact ih _ hmain.2 r hr
    | some kr =>
      rcases List.mem_cons.mp hr with heq | hmem
      · exact hmain.1 r (by rw [← heq])
      · exact ih _ hmain.2 r hmem

/-! ## Claim C2 — multiplexer overwrite-wins -/

/-- C2: in the keyed future multiplexer, every key maps to at most one
live future; `insert`ing a second future under a key that already holds
a pending future discards the first without notifying any listener, and
`poll_next` only ever yields the second future's result for that key —
the first is never observed completing. -/
theorem claim_C2_mux_overwrite {K R : Type} [DecidableEq K]
    (s : RawFutureWaitMap K R) (k : K) (f1 f2 : Fut R)
    (_hold : kfind k s.futs = some f1) (hne : f1.val ≠ f2.val) :
    kfind k (FuturesUnorderedMap.insert s k f2).futs = some f2 ∧
    (∀ g : Fut R, (k, g) ∈ (FuturesUnorderedMap.insert s k f2).futs → g = f2) ∧
    (keysNodup s.futs → keysNodup (FuturesUnorderedMap.insert s k f2).futs) ∧
    (∀ (n : Nat) (r : R),
      (k, r) ∈ FuturesUnorderedMap.yieldsOf n (FuturesUnorderedMap.insert s k f2) →
      r = f2.val) ∧
    (∀ n : Nat,
      (k, f1.val) ∉ FuturesUnorderedMap.yieldsOf n (FuturesUnorderedMap.insert s k f2)) := by
  have hfuts : (FuturesUnorderedMap.insert s k f2).futs = (k, f2) :: kerase k s.futs := rfl
  have huniq : ∀ g : Fut R, (k, g) ∈ (FuturesUnorderedMap.insert s k f2).futs → g = f2 := by
    intro g hg
    rw [hfuts] at hg
    rcases List.mem_cons.mp hg with heq | hmem
    · exact congrArg Prod.snd heq
    · exact absurd rfl (mem_kerase hmem).2
  have hall : allValAt k f2.val (FuturesUnorderedMap.insert s k f2).futs := by
    intro g hg
    rw [huniq g hg]
  refine ⟨?_, huniq, ?_, ?_, ?_⟩
  · rw [hfuts]
    simp [kfind]
  · intro hnd
    exact keysNodup_kinsert k f2 hnd
  · intro n r hr
    exact yieldsOf_allValAt k f2.val n _ hall r hr
  · intro n hmem
    exact hne (yieldsOf_allValAt k f2.val n _ hall f1.val hmem)

/-- Witness for C2, at a concrete instance: key `1` holds the pending
future `⟨5, 10⟩`; inserting `⟨0, 20⟩` overwrites it, and polling never
observes the value `10`. -/
theorem claim_C2_mux_overwrite_witness :
    kfind 1 (FuturesUnorderedMap.insert
      (⟨[(1, ⟨5, 10⟩)], [1], false⟩ : RawFutureWaitMap Nat Nat) 1 ⟨0, 20⟩).futs =
        some ⟨0, 20⟩ ∧
    (1, 10) ∉ FuturesUnorderedMap.yieldsOf 3 (FuturesUnorderedMap.insert
      (⟨[(1, ⟨5, 10⟩)], [1], false⟩ : RawFutureWaitMap Nat Nat) 1 ⟨0, 20⟩) :=
  ⟨(claim_C2_mux_overwrite (⟨[(1, ⟨5, 10⟩)], [1], false⟩ : RawFutureWaitMap Nat Nat)
      1 ⟨5, 10⟩ ⟨0, 20⟩ (by decide) (by decide)).1,
   (claim_C2_mux_overwrite (⟨[(1, ⟨5, 10⟩)], [1], false⟩ : RawFutureWaitMap Nat Nat)
      1 ⟨5, 10⟩ ⟨0, 20⟩ (by decide) (by decide)).2.2.2.2 3⟩

/-! ## Claim C4 — multiplexer poll order -/

/-- C4: on each `poll_next` invocation, ready keys are taken from the
ready queue in FIFO order; if the popped key's future completes it is
removed permanently and `(key, result)` is returned immediately,
stopping polling for that call (the rest of the queue and the other
futures are untouched); if it is not ready it is reinserted into the
map without being re-queued for polling, and the loop continues on the
remaining queue. -/
theorem claim_C4_mux_poll_order {K R : Type} [DecidableEq K]
    (s : RawFutureWaitMap K R) (k : K) (rest : List K) (f : Fut R)
    (hq : s.ready_queue = k :: rest) (hf : kfind k s.futs = some f) :
    (f.pending = 0 →
      FuturesUnorderedMap.poll_next s = (some (k, f.val), ⟨kerase k s.futs, rest, true⟩)) ∧
    (f.pending ≠ 0 →
      FuturesUnorderedMap.poll_next s =
        FuturesUnorderedMap.poll_next ⟨kinsert k ⟨f.pending - 1, f.val⟩ s.futs, rest, true⟩) := by
  constructor
  · intro hp
    have hpf : pollFut f = Sum.inl f.val := by simp [pollFut, hp]
    simp [FuturesUnorderedMap.poll_next, hq, FuturesUnorderedMap.pollLoop, hf, hpf]
  · intro hp
    have hpf : pollFut f = Sum.inr ⟨f.pending - 1, f.val⟩ := by simp [pollFut, hp]
    simp [FuturesUnorderedMap.poll_next, hq, FuturesUnorderedMap.pollLoop, hf, hpf,
      kinsert, kerase_kerase]

/-- Witness for C4, at a concrete instance: queue `[1, 2]` with future
`⟨0, 7⟩` ready at key `1` and `⟨3, 9⟩` at key `2`: the first completion
is returned immediately and key `2` is left queued and stored. -/
theorem claim_C4_mux_poll_order_witness :
    FuturesUnorderedMap.poll_next
      (⟨[(1, ⟨0, 7⟩), (2, ⟨3, 9⟩)], [1, 2], false⟩ : RawFutureWaitMap Nat Nat) =
      (some (1, 7), ⟨[(2, ⟨3, 9⟩)], [2], true⟩) := by
  have h := (claim_C4_mux_poll_order
    (⟨[(1, ⟨0, 7⟩), (2, ⟨3, 9⟩)], [1, 2], false⟩ : RawFutureWaitMap Nat Nat)
    1 [2] ⟨0, 7⟩ rfl rfl).1 rfl
  exact h.trans (by decide)

/-- A wait-map buffer keeps no value for a key after appending an entry
under a different key: the appended insert wakes no waiter on `k`. -/
theorem kfind_append_single_ne {K V : Type} [DecidableEq K] {k k' : K} (v : V)
    {l : List (K × V)} (h : kfind k l = none) (hne : k' ≠ k) :
    kfind k (l ++ [(k', v)]) = none := by
  induction l with
  | nil => simp [kfind, hne]
  | cons p rest ih =>
    rcases p with ⟨k₀, v₀⟩
    by_cases hk : k₀ = k
    · simp [kfind, hk] at h
    · simp [kfind, hk] at h ⊢
      exact ih h

/-! ## Claim C1 — close does not cancel pending lookups -/

/-- C1 (code divergence): `DnsLookupNetwork::close` sets the closed flag
but inserts only the `Send` event into the wait map; a pending lookup
waiting on `Response id` finds no value before or after the close, so
its `wait` never resumes — in particular `call_with` never reaches the
`LookupCanceled id` branch, which is produced only by
`call_with_resume` on a missing response outcome. -/
theorem claim_C1_close_does_not_cancel (s : RawDnsLookup) (id : Nat)
    (h : kfind (LookupEvent.Response id) s.waiters = none) :
    (DnsLookupNetwork.close s).is_closed = true ∧
    kfind (LookupEvent.Response id) (DnsLookupNetwork.close s).waiters = none ∧
    (∀ k : List Nat → Except Error Unit,
      DnsLookup.call_with_resume id none k = .error (.LookupCanceled id)) := by
  refine ⟨rfl, ?_, fun k => rfl⟩
  show kfind (LookupEvent.Response id) (kwInsert s.waiters .Send .Send) = none
  exact kfind_append_single_ne _ h (fun hc => LookupEvent.noConfusion hc)

/-- Witness for C1: a fresh open session with no buffered events,
transaction id `0`. -/
theorem claim_C1_close_does_not_cancel_witness :
    (DnsLookupNetwork.close (mkDns false [] [])).is_closed = true ∧
    kfind (LookupEvent.Response 0) (DnsLookupNetwork.close (mkDns false [] [])).waiters = none ∧
    DnsLookup.call_with_resume 0 none (fun _ => .ok ()) = .error (.LookupCanceled 0) := by
  have h := claim_C1_close_does_not_cancel (mkDns false [] []) 0 rfl
  exact ⟨h.1, h.2.1, h.2.2 _⟩

/-! ## Claim C3 — mDNS self-origin suppression -/

/-- C3: an inbound multicast packet whose additional records contain
the session's own generated identity name is discarded by
`MdnsDiscoverNetwork::recv` without error and without being enqueued
(the session state is unchanged, so everything `accept` can ever
deliver is unchanged), even if some answer record matches the
configured service name. -/
theorem claim_C3_mdns_self_suppression (s : RawMdnsDiscover) (msg : Message) (a : Nat)
    (h : s.id ∈ msg.additionals) :
    MdnsDiscoverNetwork.recv s (.ok msg) a = (.ok (), s) ∧
    MdnsDiscover.accept ((MdnsDiscoverNetwork.recv s (.ok msg) a).2) =
      MdnsDiscover.accept s := by
  have hany : msg.additionals.any (fun name => name = s.id) = true := by
    simp only [List.any_eq_true, decide_eq_true_eq]
    exact ⟨s.id, h, rfl⟩
  constructor
  · simp [MdnsDiscoverNetwork.recv, hany]
  · simp [MdnsDiscoverNetwork.recv, hany]

/-- Witness for C3: a packet carrying the session identity in its
additional records and an answer matching the service name is dropped
silently. -/
theorem claim_C3_mdns_self_suppression_witness :
    MdnsDiscoverNetwork.recv (mkMdns false [] [] none)
      (.ok (mkMsg ["_svc._udp.local"] ["b6e1.futures-dns.mdns"])) 7 =
      (.ok (), mkMdns false [] [] none) ∧
    MdnsDiscover.accept ((MdnsDiscoverNetwork.recv (mkMdns false [] [] none)
      (.ok (mkMsg ["_svc._udp.local"] ["b6e1.futures-dns.mdns"])) 7).2) =
      MdnsDiscover.accept (mkMdns false [] [] none) :=
  claim_C3_mdns_self_suppression (mkMdns false [] [] none)
    (mkMsg ["_svc._udp.local"] ["b6e1.futures-dns.mdns"]) 7 (by simp [mkMdns, mkMsg])

/-! ## Claim C5 — malformed discovery packets are not silent -/

/-- C5 (code divergence): `MdnsDiscoverNetwork::recv` applied to a
buffer that fails DNS message parsing returns the parse error — it is
not a silent drop; the session state is unchanged but the call itself
fails. -/
theorem claim_C5_mdns_recv_parse_error (s : RawMdnsDiscover) (e : Error) (a : Nat) :
    MdnsDiscoverNetwork.recv s (.error e) a = (.error e, s) ∧
    (MdnsDiscoverNetwork.recv s (.error e) a).1 ≠ .ok () :=
  ⟨rfl, by simp [MdnsDiscoverNetwork.recv]⟩

/-- Counterexample for C5 as stated: on an open session, a malformed
packet (parse outcome is an error, e.g. for the empty buffer) makes
`recv` return the error rather than success. -/
theorem claim_C5_counterexample :
    (MdnsDiscoverNetwork.recv (mkMdns false [] [] none) (.error .ProtoError) 0).1 =
      .error .ProtoError := rfl

/-! ## Claim C6 — send after close -/

/-- C6 (amended): after `close()`, the resolver session's `send()`
still returns packets that were queued before the close until the
outbound queue is drained, and only once the queue is empty does it
fail with `InvalidState`; the discovery session's `send()` checks the
closed flag first and fails with `InvalidState` immediately once
closed, even while packets remain queued. -/
theorem claim_C6_send_after_close_amended (s : RawDnsLookup) (b : List Nat)
    (rest : List (List Nat)) (hs : s.sending = b :: rest)
    (s2 : RawDnsLookup) (h2q : s2.sending = []) (h2c : s2.is_closed = true)
    (t : RawMdnsDiscover) (htc : t.is_closed = true) :
    DnsLookupNetwork.send s = .ret (.ok b) { s with sending := rest } ∧
    DnsLookupNetwork.send s2 = .ret (.error .InvalidState) s2 ∧
    MdnsDiscoverNetwork.send t = .ret (.error .InvalidState) t := by
  refine ⟨?_, ?_, ?_⟩
  · simp [DnsLookupNetwork.send, hs]
  · simp [DnsLookupNetwork.send, h2q, h2c]
  · simp [MdnsDiscoverNetwork.send, htc]

/-- Witness for the amended C6: a closed resolver session still drains
its queued packet; empty-and-closed sessions fail with `InvalidState`. -/
theorem claim_C6_send_after_close_amended_witness :
    DnsLookupNetwork.send (mkDns true [[9]] []) =
      .ret (.ok [9]) { mkDns true [[9]] [] with sending := [] } ∧
    DnsLookupNetwork.send (mkDns true [] []) = .ret (.error .InvalidState) (mkDns true [] []) ∧
    MdnsDiscoverNetwork.send (mkMdns true [] [] none) =
      .ret (.error .InvalidState) (mkMdns true [] [] none) :=
  claim_C6_send_after_close_amended (mkDns true [[9]] []) [9] [] rfl
    (mkDns true [] []) rfl rfl (mkMdns true [] [] none) rfl

/-- Counterexample for C6 as stated: a closed discovery session with a
packet still queued fails with `InvalidState` instead of returning the
queued packet — the claimed drain-before-fail does not hold for the
discovery session. -/
theorem claim_C6_counterexample :
    (mkMdns true [] [[1]] none).outgoing = [[1]] ∧
    MdnsDiscoverNetwork.send (mkMdns true [] [[1]] none) =
      .ret (.error .InvalidState) (mkMdns true [] [[1]] none) :=
  ⟨rfl, rfl⟩

/-! ## Claim C7 — recv after close -/

/-- C7 (amended): after `close()`, every subsequent resolver `recv()`
fails with `InvalidState`; the discovery session's `recv()` never
consults the closed flag — on a closed session a parsed packet is still
processed with success. -/
theorem claim_C7_recv_after_close_amended (s : RawDnsLookup) (buf : List Nat)
    (hs : s.is_closed = true)
    (t : RawMdnsDiscover) (_ht : t.is_closed = true) (msg : Message) (a : Nat) :
    DnsLookupNetwork.recv s buf = (.error .InvalidState, s) ∧
    (MdnsDiscoverNetwork.recv t (.ok msg) a).1 = .ok () := by
  constructor
  · simp [DnsLookupNetwork.recv, hs]
  · unfold MdnsDiscoverNetwork.recv
    dsimp only
    split_ifs <;> rfl

/-- Witness for the amended C7 on closed sessions of both kinds. -/
theorem claim_C7_recv_after_close_amended_witness :
    DnsLookupNetwork.recv (mkDns true [] []) [] = (.error .InvalidState, mkDns true [] []) ∧
    (MdnsDiscoverNetwork.recv (mkMdns true [] [] none) (.ok (mkMsg [] [])) 0).1 = .ok () :=
  claim_C7_recv_after_close_amended (mkDns true [] []) [] rfl
    (mkMdns true [] [] none) rfl (mkMsg [] []) 0

/-- Counterexample for C7 as stated: on a closed discovery session,
`recv` of a well-formed packet matching the service name succeeds (it
is even enqueued) instead of failing with `InvalidState`. -/
theorem claim_C7_counterexample :
    (mkMdns true [] [] none).is_closed = true ∧
    (MdnsDiscoverNetwork.recv (mkMdns true [] [] none)
      (.ok (mkMsg ["_svc._udp.local"] [])) 0).1 = .ok () := by
  refine ⟨rfl, ?_⟩
  simp [MdnsDiscoverNetwork.recv, mkMdns, mkMsg]

/-! ## Claim C8 — resolver recv on short buffers -/

/-- C8: on an open resolver session, `recv` with a buffer shorter than
12 bytes fails with `TooShort` and leaves the session state unchanged —
no response event is published, so no pending transaction is
affected. -/
theorem claim_C8_recv_too_short (s : RawDnsLookup) (buf : List Nat)
    (hopen : s.is_closed = false) (hlen : buf.length < 12) :
    DnsLookupNetwork.recv s buf = (.error .TooShort, s) := by
  simp [DnsLookupNetwork.recv, hopen, hlen]

/-- Witness for C8: a 3-byte buffer on a fresh open session. -/
theorem claim_C8_recv_too_short_witness :
    DnsLookupNetwork.recv (mkDns false [] []) [1, 2, 3] =
      (.error .TooShort, mkDns false [] []) :=
  claim_C8_recv_too_short (mkDns false [] []) [1, 2, 3] rfl (by decide)

/-! ## Claim C9 — timeout_instant -/

/-- C9: `timeout_instant()` returns `none` if the discovery session is
closed; otherwise, if a query has been sent before it returns exactly
`last_asking + intervals`, and if no query has been sent yet it returns
an instant not later than "now", so the first query fires
immediately. -/
theorem claim_C9_timeout_instant (s : RawMdnsDiscover) (now t : Nat) :
    (s.is_closed = true → MdnsDiscoverNetwork.timeout_instant s now = none) ∧
    (s.is_closed = false → s.last_asking = some t →
      MdnsDiscoverNetwork.timeout_instant s now = some (t + s.intervals)) ∧
    (s.is_closed = false → s.last_asking = none →
      ∃ u, MdnsDiscoverNetwork.timeout_instant s now = some u ∧ u ≤ now) := by
  refine ⟨fun hc => by simp [MdnsDiscoverNetwork.timeout_instant, hc],
    fun hc hl => by simp [MdnsDiscoverNetwork.timeout_instant, hc, hl],
    fun hc hl => ⟨now, by simp [MdnsDiscoverNetwork.timeout_instant, hc, hl], le_refl now⟩⟩

/-- Witness for C9, covering the three branches at concrete states. -/
theorem claim_C9_timeout_instant_witness :
    MdnsDiscoverNetwork.timeout_instant (mkMdns true [] [] none) 5 = none ∧
    MdnsDiscoverNetwork.timeout_instant (mkMdns false [] [] (some 10)) 5 = some 14 ∧
    (∃ u, MdnsDiscoverNetwork.timeout_instant (mkMdns false [] [] none) 5 = some u ∧ u ≤ 5) :=
  ⟨(claim_C9_timeout_instant (mkMdns true [] [] none) 5 0).1 rfl,
   (claim_C9_timeout_instant (mkMdns false [] [] (some 10)) 5 10).2.1 rfl rfl,
   (claim_C9_timeout_instant (mkMdns false [] [] none) 5 0).2.2 rfl rfl⟩

/-! ## Claim C10 — error atomicity of on_timeout and multicast -/

/-- C10: if `multicast` or `on_timeout` returns an error (session
closed, or the message fails to serialize), the discovery session state
is unchanged — in particular `last_asking` keeps its previous value and
nothing is appended to the outgoing queue. -/
theorem claim_C10_error_atomicity (s : RawMdnsDiscover) (msg : Message)
    (to_vec : Message → Except Error (List Nat)) (rid now : Nat) (e : Error) :
    ((MdnsDiscoverNetwork.multicast s msg to_vec).1 = .error e →
      (MdnsDiscoverNetwork.multicast s msg to_vec).2 = s) ∧
    ((MdnsDiscoverNetwork.on_timeout s rid now to_vec).1 = .error e →
      (MdnsDiscoverNetwork.on_timeout s rid now to_vec).2 = s) := by
  have hmc : ∀ (m : Message) (e' : Error),
      (MdnsDiscoverNetwork.multicast s m to_vec).1 = .error e' →
      (MdnsDiscoverNetwork.multicast s m to_vec).2 = s := by
    intro m e' h
    by_cases hc : s.is_closed
    · simp [MdnsDiscoverNetwork.multicast, hc]
    · cases hv : to_vec { m with additionals := m.additionals ++ [s.id] } with
      | error e'' => simp [MdnsDiscoverNetwork.multicast, hc, hv]
      | ok buf => simp [MdnsDiscoverNetwork.multicast, hc, hv] at h
  refine ⟨hmc msg e, ?_⟩
  intro h
  by_cases hc : s.is_closed
  · simp [MdnsDiscoverNetwork.on_timeout, hc]
  · rcases hm : MdnsDiscoverNetwork.multicast s
        (MdnsDiscoverNetwork.queryMessage s.service_name rid) to_vec with ⟨r, s'⟩
    cases r with
    | error e' =>
      have hs' : s' = s := by
        have hh := hmc (MdnsDiscoverNetwork.queryMessage s.service_name rid) e'
          (by rw [hm])
        rw [hm] at hh
        exact hh
      simp [MdnsDiscoverNetwork.on_timeout, hc, hm, hs']
    | ok u =>
      simp [MdnsDiscoverNetwork.on_timeout, hc, hm] at h

/-- Witness for C10: an open session whose serializer fails leaves the
state untouched through both `multicast` and `on_timeout`. -/
theorem claim_C10_error_atomicity_witness :
    (MdnsDiscoverNetwork.multicast (mkMdns false [] [] none) (mkMsg [] [])
      (fun _ => .error .ProtoError)).2 = mkMdns false [] [] none ∧
    (MdnsDiscoverNetwork.on_timeout (mkMdns false [] [] none) 3 5
      (fun _ => .error .ProtoError)).2 = mkMdns false [] [] none :=
  ⟨(claim_C10_error_atomicity (mkMdns false [] [] none) (mkMsg [] [])
      (fun _ => .error .ProtoError) 3 5 .ProtoError).1 rfl,
   (claim_C10_error_atomicity (mkMdns false [] [] none) (mkMsg [] [])
      (fun _ => .error .ProtoError) 3 5 .ProtoError).2 rfl⟩
